import Mathlib

/-!
Verification of the schema-inference and normalization pipeline
(`modules/data_processor.py`) and the aggregation layer
(`modules/analytics.py`) of the academic-progress dashboard.

Modelling conventions:
* A pandas dataframe of raw (string-typed) cells is `DF`: an ordered list of
  column names plus an ordered list of rows, each row an ordered list of cell
  values (Python scalars are represented by their `str()` form, which is the
  only form `get_score` ever inspects).
* The normalized dataframe is `NormDF`: the renamed/backfilled string columns
  plus the numeric `SCORE` column, kept in a separate field because it is the
  single non-string column the pipeline creates.  Python floats are modelled
  as rationals; the scores the pipeline produces are exactly 0, 1/2 and 1.
* A canonical table consumed by the aggregators is `CTable`: the dataframe's
  column-name list plus typed rows (`CRow`), one field per guaranteed column.
* Python's `str.lower`/`str.strip` and the header regex are modelled by
  structural character-list functions (`pyLower`, `pyStrip`, `isAlnumChar`)
  over the ASCII range actually exercised by the keyword tables.
* Python's `round(x, 1)` (banker's rounding on the scaled value) is `round1`.
-/

/-- ASCII lower-casing of one character, the fragment of Python `str.lower`
relevant to the keyword tables and status vocabulary. -/
def lowerChar (c : Char) : Char :=
  if 65 ≤ c.toNat ∧ c.toNat ≤ 90 then Char.ofNat (c.toNat + 32) else c

/-- Model of Python `str.lower`. -/
def pyLower (s : String) : String := String.mk (s.data.map lowerChar)

/-- The whitespace class stripped by Python `str.strip`. -/
def isPySpace (c : Char) : Bool :=
  c = ' ' || c = '\t' || c = '\n' || c = '\r' || c = '\x0b' || c = '\x0c'

/-- Model of Python `str.strip` (no arguments): drop leading and trailing
whitespace. -/
def pyStrip (s : String) : String :=
  String.mk (((s.data.dropWhile isPySpace).reverse.dropWhile isPySpace).reverse)

/-- The characters kept by `re.sub(r'[^a-zA-Z0-9]', '', ...)`. -/
def isAlnumChar (c : Char) : Bool :=
  (48 ≤ c.toNat && c.toNat ≤ 57) ||
    (65 ≤ c.toNat && c.toNat ≤ 90) ||
    (97 ≤ c.toNat && c.toNat ≤ 122)

/-- `normalize_header` from `data_processor.py`: lower-case the column name
and strip every non-alphanumeric character. -/
def normalize_header (h : String) : String :=
  String.mk ((pyLower h).data.filter isAlnumChar)

/-- Whether the first character list starts the second. -/
def listStartsWith : List Char → List Char → Bool
  | [], _ => true
  | _ :: _, [] => false
  | a :: as, b :: bs => a = b && listStartsWith as bs

/-- Substring test on character lists (Python's `k in s` for strings). -/
def listContainsSub (n : List Char) : List Char → Bool
  | [] => n.isEmpty
  | c :: t => listStartsWith n (c :: t) || listContainsSub n t

/-- Python's `needle in hay` on strings. -/
def strContains (hay needle : String) : Bool := listContainsSub needle.data hay.data

/-- The role→column mapping produced by the Schema Resolver
(`schema_map` in `auto_detect_schema`); `section_` renders the Python key
`"section"`, which is a reserved word in Lean. -/
structure SchemaMap where
  campus : Option String
  instructor : Option String
  subject : Option String
  section_ : Option String
  status : Option String
  week : Option String
deriving DecidableEq, Repr

def campus_keywords : List String := ["campus", "location", "center", "branch", "university"]

def inst_keywords : List String := ["instructor", "faculty", "trainer", "teacher", "mentor"]

def subject_keywords : List String := ["subject", "course", "module"]

def section_keywords : List String := ["section", "batch", "group", "class", "hall"]

def status_keywords : List String := ["status", "progress", "completion", "state", "remarks"]

def week_keywords : List String := ["week", "target", "session", "day"]

/-- Whether a raw column name matches a role's keyword list: its normalized
name contains some keyword as a substring. -/
def kwMatch (kws : List String) (c : String) : Bool :=
  kws.any (fun k => strContains (normalize_header c) k)

/-- The status-role matcher: a status keyword must occur, and the normalized
name must contain neither `expected` nor `target` (the "Expected Progress"
disambiguation in `auto_detect_schema`). -/
def statusMatch (c : String) : Bool :=
  kwMatch status_keywords c &&
    !(strContains (normalize_header c) "expected") &&
    !(strContains (normalize_header c) "target")

/-- `auto_detect_schema` from `data_processor.py`: for each role, scan the
columns in their original order and take the first whose normalized name
matches the role's keywords (`None` when no column matches). -/
def auto_detect_schema (cols : List String) : SchemaMap :=
  { campus := cols.find? (kwMatch campus_keywords)
    instructor := cols.find? (kwMatch inst_keywords)
    subject := cols.find? (kwMatch subject_keywords)
    section_ := cols.find? (kwMatch section_keywords)
    status := cols.find? statusMatch
    week := cols.find? (kwMatch week_keywords) }

/-- A raw dataframe: ordered column names and ordered rows of string cells. -/
structure DF where
  cols : List String
  rows : List (List String)
deriving DecidableEq, Repr

/-- A row is aligned when it has one cell per column. -/
def DF.aligned (df : DF) : Prop := ∀ r ∈ df.rows, r.length = df.cols.length

/-- The six roles with their canonical uppercase names, in the fixed
insertion order of the Python dict `schema_map`. -/
def roleList (m : SchemaMap) : List (String × Option String) :=
  [("CAMPUS", m.campus), ("INSTRUCTOR", m.instructor), ("SUBJECT", m.subject),
   ("SECTION", m.section_), ("STATUS", m.status), ("WEEK", m.week)]

/-- The canonical names of the roles mapped to raw column `c`, in role
order. -/
def assignedRoles (m : SchemaMap) (c : String) : List String :=
  (roleList m).filterMap (fun p => if p.2 = some c then some p.1 else none)

/-- The rename plan `rename_dict = {v: k.upper() for k, v in schema_map.items()
if v is not None}` read at key `c`: a later role overwrites an earlier one
assigned to the same raw column, so the dict holds the last assigned role. -/
def renameLookup (m : SchemaMap) (c : String) : Option String :=
  (assignedRoles m c).getLast?

/-- `df.rename(columns=rename_dict)` applied to a single column name. -/
def renameCol (m : SchemaMap) (c : String) : String := (renameLookup m c).getD c

/-- The column names after the rename step of `normalize_data`. -/
def renamedCols (df : DF) (m : SchemaMap) : List String := df.cols.map (renameCol m)

def required_keys : List String :=
  ["CAMPUS", "INSTRUCTOR", "SUBJECT", "SECTION", "STATUS", "WEEK"]

/-- One iteration of the backfill loop of `normalize_data`: if canonical key
`k` is not yet a column, append it with the constant value `"Unknown"`. -/
def addKey (df : DF) (k : String) : DF :=
  if df.cols.contains k then df
  else ⟨df.cols ++ [k], df.rows.map (fun r => r ++ ["Unknown"])⟩

/-- The backfill loop: `for k in required_keys: if k not in columns: ...`. -/
def ensureKeys (df : DF) : DF := required_keys.foldl addKey df

/-- The canonical keys still missing from a column list. -/
def missingKeys (ks : List String) (cols : List String) : List String :=
  ks.filter (fun k => !cols.contains k)

/-- `get_score` from `normalize_data`: classify the lower-cased, stripped
status text into a completion score. -/
def get_score (status_val : String) : ℚ :=
  if pyStrip (pyLower status_val) ∈ ["done", "completed", "finished", "yes", "y", "1", "1.0"] then 1
  else if pyStrip (pyLower status_val) ∈ ["in progress", "ongoing", "started", "wip"] then 1/2
  else 0

/-- Cell lookup `row[col]`: walk columns and cells together and return the
value under the first column with the requested name (empty string when the
column is absent or the row is exhausted). -/
def getCell : List String → List String → String → String
  | [], _, _ => ""
  | _ :: _, [], _ => ""
  | c :: cs, v :: vs, n => if c = n then v else getCell cs vs n

/-- The normalized dataframe: renamed/backfilled string columns plus the
derived numeric `SCORE` column (held apart as the only non-string column). -/
structure NormDF where
  cols : List String
  rows : List (List String)
  score : List ℚ
deriving DecidableEq, Repr

/-- `normalize_data` from `data_processor.py`: rename mapped columns to their
canonical names, backfill the missing canonical columns with `"Unknown"`,
and derive `SCORE` from the `STATUS` column. -/
def normalize_data (df : DF) (m : SchemaMap) : NormDF :=
  let full := ensureKeys ⟨renamedCols df m, df.rows⟩
  ⟨full.cols, full.rows,
   full.rows.map (fun r => get_score (getCell full.cols r "STATUS"))⟩

/-- A row of the canonical table, one field per guaranteed column. -/
structure CRow where
  CAMPUS : String
  INSTRUCTOR : String
  SUBJECT : String
  SECTION : String
  STATUS : String
  WEEK : String
  SCORE : ℚ
deriving DecidableEq, Repr

/-- A canonical table: the dataframe's column-name list plus typed rows. -/
structure CTable where
  cols : List String
  rows : List CRow
deriving DecidableEq, Repr

/-- Read one typed row out of a normalized dataframe row. -/
def toCRow (cols : List String) (r : List String) (q : ℚ) : CRow :=
  ⟨getCell cols r "CAMPUS", getCell cols r "INSTRUCTOR", getCell cols r "SUBJECT",
   getCell cols r "SECTION", getCell cols r "STATUS", getCell cols r "WEEK", q⟩

/-- View a normalized dataframe as a canonical table. -/
def toCTable (n : NormDF) : CTable :=
  ⟨n.cols, (n.rows.zip n.score).map (fun p => toCRow n.cols p.1 p.2)⟩

/-- Python `round` to an integer: round half to even (floats whose value is
exactly representable, which covers the scores the pipeline produces). -/
def pyRound (q : ℚ) : ℤ :=
  if q - (⌊q⌋ : ℚ) < 1/2 then ⌊q⌋
  else if (1:ℚ)/2 < q - (⌊q⌋ : ℚ) then ⌊q⌋ + 1
  else if ⌊q⌋ % 2 = 0 then ⌊q⌋ else ⌊q⌋ + 1

/-- Python `round(x, 1)`. -/
def round1 (q : ℚ) : ℚ := (pyRound (q * 10) : ℚ) / 10

/-- `pd.Series.nunique`: number of distinct values. -/
def nunique (l : List String) : ℕ := l.dedup.length

/-- Distinct values in pandas `groupby` key order (sorted ascending). -/
def uniqueSorted (l : List String) : List String :=
  l.dedup.mergeSort (fun a b => decide (a ≤ b))

/-- `df.groupby(key)['SCORE'].mean()` for one group key. -/
def groupMean (rows : List CRow) (f : CRow → String) (k : String) : ℚ :=
  let g := rows.filter (fun r => decide (f r = k))
  (g.map CRow.SCORE).sum / (g.length : ℚ)

/-- The result dict of `compute_kpis` (for a non-empty table). -/
structure KPIs where
  num_campuses : ℕ
  num_instructors : ℕ
  num_subjects : ℕ
  global_completion : ℚ
  at_risk_instructors : ℕ
deriving DecidableEq, Repr

/-- `compute_kpis` from `analytics.py`; `none` models the empty dict `{}`
returned for an empty table. -/
def compute_kpis (t : CTable) : Option KPIs :=
  if t.rows.isEmpty then none
  else some
    { num_campuses := nunique (t.rows.map CRow.CAMPUS)
      num_instructors := nunique (t.rows.map CRow.INSTRUCTOR)
      num_subjects := nunique (t.rows.map CRow.SUBJECT)
      global_completion :=
        round1 ((t.rows.map CRow.SCORE).sum / (t.rows.length : ℚ) * 100)
      at_risk_instructors :=
        ((uniqueSorted (t.rows.map CRow.INSTRUCTOR)).filter
          (fun i => decide (groupMean t.rows CRow.INSTRUCTOR i < 1/2))).length }

/-- One row of the `compute_instructor_performance` rollup. -/
structure PerfRow where
  INSTRUCTOR : String
  CAMPUS : String
  Total_Items : ℕ
  Completed_Score_Sum : ℚ
  Completion_Pct : ℚ
  Status : String
deriving DecidableEq, Repr

/-- `label_status` from `compute_instructor_performance`. -/
def label_status (pct : ℚ) : String :=
  if pct ≥ 80 then "On Track ✅"
  else if pct ≥ 50 then "Delayed ⚠️"
  else "Critical 🔴"

/-- Lexicographic order on (instructor, campus) pairs, the pandas `groupby`
key order. -/
def pairLe (a b : String × String) : Bool :=
  decide (a.1 < b.1) || (decide (a.1 = b.1) && decide (a.2 ≤ b.2))

/-- The distinct (instructor, campus) group keys, in `groupby` order. -/
def groupPairs (rows : List CRow) : List (String × String) :=
  ((rows.map (fun r => (r.INSTRUCTOR, r.CAMPUS))).dedup).mergeSort pairLe

/-- The aggregate row of one (instructor, campus) group. -/
def perfRowFor (rows : List CRow) (p : String × String) : PerfRow :=
  let g := rows.filter (fun r => decide (r.INSTRUCTOR = p.1 ∧ r.CAMPUS = p.2))
  let pct := round1 ((g.map CRow.SCORE).sum / (g.length : ℚ) * 100)
  ⟨p.1, p.2, g.length, (g.map CRow.SCORE).sum, pct, label_status pct⟩

/-- `compute_instructor_performance` from `analytics.py`: group by
(instructor, campus), aggregate, and sort ascending by `Completion_Pct`. -/
def compute_instructor_performance (t : CTable) : List PerfRow :=
  if t.rows.isEmpty then []
  else ((groupPairs t.rows).map (perfRowFor t.rows)).mergeSort
    (fun a b => decide (a.Completion_Pct ≤ b.Completion_Pct))

/-- The result of `compute_risk_factors`. -/
structure RiskFactors where
  campuses : List String
  instructors : List String
deriving DecidableEq, Repr

/-- `compute_risk_factors` from `analytics.py`: campuses with mean score
below 0.6 and instructors with mean score below 0.5. -/
def compute_risk_factors (t : CTable) : RiskFactors :=
  if t.rows.isEmpty then ⟨[], []⟩
  else
    ⟨(uniqueSorted (t.rows.map CRow.CAMPUS)).filter
        (fun c => decide (groupMean t.rows CRow.CAMPUS c < 3/5)),
     (uniqueSorted (t.rows.map CRow.INSTRUCTOR)).filter
        (fun i => decide (groupMean t.rows CRow.INSTRUCTOR i < 1/2))⟩

/-- The JSON digest built by `build_ai_summary` for a non-empty table. -/
structure SummaryData where
  context : String
  total_records : ℕ
  average_completion_pct : ℚ
  status_distribution : List (String × ℕ)
  at_risk_preview : List (List (String × String))
  risk_count : ℕ
  unique_instructors : ℕ
  unique_campuses : ℕ
  active_sections : Option ℕ
deriving DecidableEq, Repr

/-- The two shapes `build_ai_summary` can return: the error dict for an empty
table, or the digest. -/
inductive Summary where
  | err (context msg : String)
  | ok (d : SummaryData)
deriving DecidableEq, Repr

/-- The fixed preferred column subset for the at-risk preview. -/
def preferred_cols : List String :=
  ["INSTRUCTOR", "CAMPUS", "SUBJECT", "SECTION", "STATUS"]

/-- Read a canonical field of a typed row by column name. -/
def fieldOf (r : CRow) (c : String) : String :=
  if c = "INSTRUCTOR" then r.INSTRUCTOR
  else if c = "CAMPUS" then r.CAMPUS
  else if c = "SUBJECT" then r.SUBJECT
  else if c = "SECTION" then r.SECTION
  else if c = "STATUS" then r.STATUS
  else if c = "WEEK" then r.WEEK
  else ""

/-- `risk_df[cols_to_keep] ... to_dict(orient='records')` for one row. -/
def projRow (keep : List String) (r : CRow) : List (String × String) :=
  keep.map (fun c => (c, fieldOf r c))

/-- `df['STATUS'].value_counts().to_dict()`: count per distinct status value
(the result is consumed as an unordered dict, so the listing order is
immaterial; we list distinct values in `dedup` order). -/
def statusCounts (rows : List CRow) : List (String × ℕ) :=
  ((rows.map CRow.STATUS).dedup).map
    (fun s => (s, (rows.filter (fun r => decide (r.STATUS = s))).length))

/-- `build_ai_summary` from `analytics.py`. -/
def build_ai_summary (t : CTable) (context : String) : Summary :=
  if t.rows.isEmpty then .err context "No data available in current filter"
  else
    let risk := t.rows.filter (fun r => decide (r.SCORE < 1/2))
    let keep := preferred_cols.filter (fun c => t.cols.contains c)
    .ok
      { context := context
        total_records := t.rows.length
        average_completion_pct :=
          round1 ((t.rows.map CRow.SCORE).sum / (t.rows.length : ℚ) * 100)
        status_distribution := statusCounts t.rows
        at_risk_preview := (risk.take 5).map (projRow keep)
        risk_count := risk.length
        unique_instructors := nunique (t.rows.map CRow.INSTRUCTOR)
        unique_campuses := nunique (t.rows.map CRow.CAMPUS)
        active_sections :=
          if t.cols.contains "SECTION" then some (nunique (t.rows.map CRow.SECTION))
          else none }

/-- Which `active_sections` value a summary carries (`none` for the
empty-table error shape). -/
def activeSectionsOf : Summary → Option (Option ℕ)
  | .err _ _ => none
  | .ok d => some d.active_sections

/-! ## Helper lemmas -/

theorem find?_first_some (p : String → Bool) (l : List String) (c : String) :
    l.find? p = some c ↔
      p c = true ∧ ∃ pre suf, l = pre ++ c :: suf ∧ ∀ x ∈ pre, p x = false := by
  rw [List.find?_eq_some]
  simp only [Bool.not_eq_true']

theorem find?_none_iff (p : String → Bool) (l : List String) :
    l.find? p = none ↔ ∀ x ∈ l, p x = false := by
  rw [List.find?_eq_none]
  simp only [Bool.not_eq_true]

/-! ## C1 -/

/-- C1: for every status value (represented by its string form), the derived
score is exactly one of 0, 1/2, 1; it is a function of the lower-cased,
stripped form of the value; the done-vocabulary maps to 1, the in-progress
vocabulary to 1/2, and every other value (empty or unrecognized included)
to 0, with no error path. -/
theorem C1_score_total_and_deterministic (v : String) :
    (get_score v = 0 ∨ get_score v = 1/2 ∨ get_score v = 1) ∧
    (∀ w : String, pyStrip (pyLower v) = pyStrip (pyLower w) →
      get_score v = get_score w) ∧
    (pyStrip (pyLower v) ∈ ["done", "completed", "finished", "yes", "y", "1", "1.0"] →
      get_score v = 1) ∧
    (pyStrip (pyLower v) ∈ ["in progress", "ongoing", "started", "wip"] →
      get_score v = 1/2) ∧
    (pyStrip (pyLower v) ∉ ["done", "completed", "finished", "yes", "y", "1", "1.0"] →
      pyStrip (pyLower v) ∉ ["in progress", "ongoing", "started", "wip"] →
      get_score v = 0) := by
  refine ⟨?_, ?_, ?_, ?_, ?_⟩
  · unfold get_score
    split_ifs <;> simp
  · intro w h
    unfold get_score
    rw [h]
  · intro h
    unfold get_score
    rw [if_pos h]
  · intro h
    have h1 : pyStrip (pyLower v) ∉
        ["done", "completed", "finished", "yes", "y", "1", "1.0"] := by
      simp only [List.mem_cons, List.not_mem_nil, or_false] at h ⊢
      rcases h with h | h | h | h <;> rw [h] <;> decide
    unfold get_score
    rw [if_neg h1, if_pos h]
  · intro h1 h2
    unfold get_score
    rw [if_neg h1, if_neg h2]

/-- Witness for C1 at concrete status values. -/
theorem C1_score_total_and_deterministic_witness :
    get_score " DONE " = 1 ∧ get_score "wip" = 1/2 ∧ get_score "Pending" = 0 ∧
    get_score "Done" = get_score " done " :=
  ⟨(C1_score_total_and_deterministic " DONE ").2.2.1 (by decide),
   (C1_score_total_and_deterministic "wip").2.2.2.1 (by decide),
   (C1_score_total_and_deterministic "Pending").2.2.2.2 (by decide) (by decide),
   (C1_score_total_and_deterministic "Done").2.1 " done " (by decide)⟩

/-! ## C3 -/

/-- C3: heuristic schema resolution assigns each role the first column, in
original column order, matched by that role's matcher (keyword containment
in the normalized name; for the status role the matcher also carries the
`expected`/`target` exclusion); the role is `none`, not an error, when no
column matches; and the six-column example resolves as the spec states. -/
theorem C3_first_matching_column (cols : List String) (c : String) :
    ((auto_detect_schema cols).campus = some c ↔
      kwMatch campus_keywords c = true ∧
        ∃ pre suf, cols = pre ++ c :: suf ∧ ∀ x ∈ pre, kwMatch campus_keywords x = false) ∧
    ((auto_detect_schema cols).campus = none ↔
      ∀ x ∈ cols, kwMatch campus_keywords x = false) ∧
    ((auto_detect_schema cols).instructor = some c ↔
      kwMatch inst_keywords c = true ∧
        ∃ pre suf, cols = pre ++ c :: suf ∧ ∀ x ∈ pre, kwMatch inst_keywords x = false) ∧
    ((auto_detect_schema cols).instructor = none ↔
      ∀ x ∈ cols, kwMatch inst_keywords x = false) ∧
    ((auto_detect_schema cols).subject = some c ↔
      kwMatch subject_keywords c = true ∧
        ∃ pre suf, cols = pre ++ c :: suf ∧ ∀ x ∈ pre, kwMatch subject_keywords x = false) ∧
    ((auto_detect_schema cols).subject = none ↔
      ∀ x ∈ cols, kwMatch subject_keywords x = false) ∧
    ((auto_detect_schema cols).section_ = some c ↔
      kwMatch section_keywords c = true ∧
        ∃ pre suf, cols = pre ++ c :: suf ∧ ∀ x ∈ pre, kwMatch section_keywords x = false) ∧
    ((auto_detect_schema cols).section_ = none ↔
      ∀ x ∈ cols, kwMatch section_keywords x = false) ∧
    ((auto_detect_schema cols).status = some c ↔
      statusMatch c = true ∧
        ∃ pre suf, cols = pre ++ c :: suf ∧ ∀ x ∈ pre, statusMatch x = false) ∧
    ((auto_detect_schema cols).status = none ↔
      ∀ x ∈ cols, statusMatch x = false) ∧
    ((auto_detect_schema cols).week = some c ↔
      kwMatch week_keywords c = true ∧
        ∃ pre suf, cols = pre ++ c :: suf ∧ ∀ x ∈ pre, kwMatch week_keywords x = false) ∧
    ((auto_detect_schema cols).week = none ↔
      ∀ x ∈ cols, kwMatch week_keywords x = false) ∧
    auto_detect_schema ["Center", "Trainer Name", "Module", "Batch No", "Current State", "Week No"] =
      ⟨some "Center", some "Trainer Name", some "Module", some "Batch No",
       some "Current State", some "Week No"⟩ :=
  ⟨find?_first_some _ cols c, find?_none_iff _ cols,
   find?_first_some _ cols c, find?_none_iff _ cols,
   find?_first_some _ cols c, find?_none_iff _ cols,
   find?_first_some _ cols c, find?_none_iff _ cols,
   find?_first_some _ cols c, find?_none_iff _ cols,
   find?_first_some _ cols c, find?_none_iff _ cols,
   by decide⟩

/-! ## C4 -/

/-- C4: the status role is never resolved to a column whose normalized name
contains `expected` or `target`, and on the columns
`["Status", "Expected Progress"]` it resolves to `"Status"`. -/
theorem C4_status_never_expected_target :
    (∀ (cols : List String) (c : String), (auto_detect_schema cols).status = some c →
      strContains (normalize_header c) "expected" = false ∧
      strContains (normalize_header c) "target" = false) ∧
    (auto_detect_schema ["Status", "Expected Progress"]).status = some "Status" := by
  constructor
  · intro cols c h
    have hp : statusMatch c = true := List.find?_some h
    unfold statusMatch at hp
    simp only [Bool.and_eq_true, Bool.not_eq_true'] at hp
    exact ⟨hp.1.2, hp.2⟩
  · decide

/-- Witness for C4 at the spec's two-column example. -/
theorem C4_status_never_expected_target_witness :
    strContains (normalize_header "Status") "expected" = false ∧
    strContains (normalize_header "Status") "target" = false :=
  C4_status_never_expected_target.1 ["Status", "Expected Progress"] "Status" (by decide)

/-! ## Normalizer structure lemmas -/

theorem foldl_addKey_eq : ∀ (ks : List String), ks.Nodup → ∀ (df : DF),
    ks.foldl addKey df =
      ⟨df.cols ++ missingKeys ks df.cols,
       df.rows.map (fun r => r ++ (missingKeys ks df.cols).map (fun _ => "Unknown"))⟩ := by
  intro ks
  induction ks with
  | nil =>
    intro _ df
    cases df with
    | mk cols rows => simp [missingKeys]
  | cons k ks ih =>
    intro hnd df
    rw [List.foldl_cons]
    by_cases hk : df.cols.contains k
    · have ha : addKey df k = df := by
        unfold addKey
        rw [if_pos hk]
      have hkmem : k ∈ df.cols := by simpa using hk
      have hm : missingKeys (k :: ks) df.cols = missingKeys ks df.cols := by
        simp [missingKeys, List.filter_cons, hkmem]
      rw [ha, ih (List.nodup_cons.mp hnd).2 df, hm]
    · have ha : addKey df k = ⟨df.cols ++ [k], df.rows.map (fun r => r ++ ["Unknown"])⟩ := by
        unfold addKey
        rw [if_neg hk]
      have hknotin : k ∉ ks := (List.nodup_cons.mp hnd).1
      have hmiss : missingKeys (k :: ks) df.cols = k :: missingKeys ks (df.cols ++ [k]) := by
        simp only [missingKeys, List.filter_cons, hk, Bool.not_false, if_pos]
        congr 1
        apply List.filter_congr
        intro x hx
        have hxk : x ≠ k := fun h => hknotin (h ▸ hx)
        simp [hxk]
      rw [ha, ih (List.nodup_cons.mp hnd).2, hmiss]
      simp only [DF.mk.injEq]
      constructor
      · simp [List.append_assoc]
      · simp only [List.map_map, List.map_cons]
        apply List.map_congr_left
        intro r _
        simp [Function.comp, List.append_assoc]

theorem normalize_cols_eq (df : DF) (m : SchemaMap) :
    (normalize_data df m).cols =
      renamedCols df m ++ missingKeys required_keys (renamedCols df m) := by
  unfold normalize_data ensureKeys
  rw [foldl_addKey_eq required_keys (by decide) ⟨renamedCols df m, df.rows⟩]

theorem normalize_rows_eq (df : DF) (m : SchemaMap) :
    (normalize_data df m).rows =
      df.rows.map (fun r =>
        r ++ (missingKeys required_keys (renamedCols df m)).map (fun _ => "Unknown")) := by
  unfold normalize_data ensureKeys
  rw [foldl_addKey_eq required_keys (by decide) ⟨renamedCols df m, df.rows⟩]

theorem normalize_score_eq (df : DF) (m : SchemaMap) :
    (normalize_data df m).score =
      (normalize_data df m).rows.map
        (fun r => get_score (getCell (normalize_data df m).cols r "STATUS")) := by
  unfold normalize_data ensureKeys
  rw [foldl_addKey_eq required_keys (by decide) ⟨renamedCols df m, df.rows⟩]

theorem normalize_cols_mem (df : DF) (m : SchemaMap) {k : String}
    (hk : k ∈ required_keys) : k ∈ (normalize_data df m).cols := by
  rw [normalize_cols_eq]
  by_cases h : k ∈ renamedCols df m
  · exact List.mem_append_left _ h
  · refine List.mem_append_right _ ?_
    simp only [missingKeys, List.mem_filter]
    simp [hk, h]

theorem getCell_append {cs1 cs2 r1 r2 : List String} {n : String}
    (hlen : r1.length = cs1.length) (hn : n ∉ cs1) :
    getCell (cs1 ++ cs2) (r1 ++ r2) n = getCell cs2 r2 n := by
  induction cs1 generalizing r1 with
  | nil =>
    cases r1 with
    | nil => simp
    | cons v vs => simp at hlen
  | cons c cs ihh =>
    cases r1 with
    | nil => simp at hlen
    | cons v vs =>
      simp only [List.cons_append, getCell]
      have hcn : ¬(c = n) := by
        intro h
        exact hn (by rw [← h]; exact List.mem_cons_self c cs)
      rw [if_neg hcn]
      exact ihh (by simpa using hlen) (fun h => hn (List.mem_cons_of_mem _ h))

theorem getCell_const {ks : List String} {n : String} (hn : n ∈ ks) :
    getCell ks (ks.map (fun _ => "Unknown")) n = "Unknown" := by
  induction ks with
  | nil => cases hn
  | cons k ks ihh =>
    simp only [List.map_cons, getCell]
    by_cases h : k = n
    · rw [if_pos h]
    · rw [if_neg h]
      refine ihh ?_
      rcases List.mem_cons.mp hn with h' | h'
      · exact absurd h'.symm h
      · exact h'

theorem normalize_unknown (df : DF) (m : SchemaMap) (hal : df.aligned) {k : String}
    (hk : k ∈ required_keys) (hnot : k ∉ renamedCols df m) :
    ∀ r ∈ (normalize_data df m).rows,
      getCell (normalize_data df m).cols r k = "Unknown" := by
  intro r hr
  rw [normalize_rows_eq] at hr
  rw [normalize_cols_eq]
  obtain ⟨r0, hr0, rfl⟩ := List.mem_map.mp hr
  have hlen : r0.length = (renamedCols df m).length := by
    rw [renamedCols, List.length_map]
    exact hal r0 hr0
  rw [getCell_append hlen hnot]
  refine getCell_const ?_
  simp only [missingKeys, List.mem_filter]
  simp [hk, hnot]

/-! ## C2 -/

/-- C2 (amended): for every aligned raw table and every role mapping,
normalization preserves the row count and row order (each output row is the
input row extended by a constant `"Unknown"` pad), produces all six
canonical columns plus a `SCORE` entry per row, keeps every row aligned,
and fills an unset role's field with `"Unknown"` for every row provided the
role's canonical name does not already occur among the renamed columns
(e.g. as a literal raw column name, the case the original claim misses). -/
theorem C2_normalize_shape (df : DF) (m : SchemaMap) (hal : df.aligned) :
    (normalize_data df m).rows.length = df.rows.length ∧
    (normalize_data df m).score.length = df.rows.length ∧
    (∀ k ∈ required_keys, k ∈ (normalize_data df m).cols) ∧
    (∃ pad : List String, (∀ x ∈ pad, x = "Unknown") ∧
      (normalize_data df m).rows = df.rows.map (fun r => r ++ pad)) ∧
    (∀ r ∈ (normalize_data df m).rows, r.length = (normalize_data df m).cols.length) ∧
    (∀ p ∈ roleList m, p.2 = none → p.1 ∉ renamedCols df m →
      ∀ r ∈ (normalize_data df m).rows,
        getCell (normalize_data df m).cols r p.1 = "Unknown") := by
  refine ⟨?_, ?_, ?_, ?_, ?_, ?_⟩
  · rw [normalize_rows_eq, List.length_map]
  · rw [normalize_score_eq, normalize_rows_eq, List.length_map, List.length_map]
  · intro k hk
    exact normalize_cols_mem df m hk
  · refine ⟨(missingKeys required_keys (renamedCols df m)).map (fun _ => "Unknown"), ?_, ?_⟩
    · intro x hx
      obtain ⟨_, _, rfl⟩ := List.mem_map.mp hx
      rfl
    · exact normalize_rows_eq df m
  · intro r hr
    rw [normalize_rows_eq] at hr
    obtain ⟨r0, hr0, rfl⟩ := List.mem_map.mp hr
    rw [normalize_cols_eq]
    simp only [List.length_append, List.length_map]
    have : r0.length = (renamedCols df m).length := by
      rw [renamedCols, List.length_map]
      exact hal r0 hr0
    omega
  · intro p hp _ hnot
    have hkreq : p.1 ∈ required_keys := by
      simp only [roleList, List.mem_cons, List.not_mem_nil, or_false] at hp
      rcases hp with h | h | h | h | h | h <;> rw [h] <;> simp [required_keys]
    exact normalize_unknown df m hal hkreq hnot

/-- Witness for C2 on a one-column, one-row table. -/
theorem C2_normalize_shape_witness :
    (normalize_data ⟨["A"], [["x"]]⟩ ⟨some "A", none, none, none, none, none⟩).rows.length = 1 :=
  (C2_normalize_shape ⟨["A"], [["x"]]⟩ ⟨some "A", none, none, none, none, none⟩
    (by intro r hr; simp at hr; rw [hr]; rfl)).1

/-- Counterexample to C2 as stated: with the all-unset mapping, a raw table
that already has a column literally named `CAMPUS` keeps that column's data,
so the unset campus role is not backfilled with `"Unknown"`. -/
theorem C2_counterexample :
    DF.aligned ⟨["CAMPUS"], [["SiteA"]]⟩ ∧
    getCell (normalize_data ⟨["CAMPUS"], [["SiteA"]]⟩ ⟨none, none, none, none, none, none⟩).cols
      ((normalize_data ⟨["CAMPUS"], [["SiteA"]]⟩
        ⟨none, none, none, none, none, none⟩).rows.getD 0 []) "CAMPUS" = "SiteA" ∧
    ("SiteA" : String) ≠ "Unknown" := by
  refine ⟨?_, by decide, by decide⟩
  intro r hr
  simp at hr
  rw [hr]
  rfl

/-! ## C10 -/

/-- C10 (amended): when a raw column is assigned to several roles, the
rename dictionary keeps only the role that comes last in the fixed order
campus, instructor, subject, section, status, week; every earlier role
sharing the column gets `"Unknown"` for all rows, provided that earlier
role's canonical name does not itself occur among the renamed columns
(e.g. as a literal raw column name, the case the original claim misses). -/
theorem C10_last_role_wins (df : DF) (m : SchemaMap) (c n : String) (rest : List String)
    (hal : df.aligned) (hshare : assignedRoles m c = rest ++ [n]) :
    renameCol m c = n ∧
    (∀ e ∈ rest, e ∉ renamedCols df m →
      ∀ r ∈ (normalize_data df m).rows,
        getCell (normalize_data df m).cols r e = "Unknown") := by
  constructor
  · unfold renameCol renameLookup
    rw [hshare, List.getLast?_concat]
    rfl
  · intro e he hnot
    have hmem : e ∈ assignedRoles m c := by
      rw [hshare]
      exact List.mem_append_left _ he
    have hkreq : e ∈ required_keys := by
      unfold assignedRoles at hmem
      obtain ⟨p, hp, hpe⟩ := List.mem_filterMap.mp hmem
      have hp1 : p.1 = e := by
        by_cases h : p.2 = some c
        · rw [if_pos h] at hpe
          exact Option.some.inj hpe
        · rw [if_neg h] at hpe
          cases hpe
      simp only [roleList, List.mem_cons, List.not_mem_nil, or_false] at hp
      rw [← hp1]
      rcases hp with h | h | h | h | h | h <;> rw [h] <;> simp [required_keys]
    exact normalize_unknown df m hal hkreq hnot

/-- Witness for C10: campus and instructor both mapped to column `X`; the
rename keeps the later role (instructor). -/
theorem C10_last_role_wins_witness :
    renameCol ⟨some "X", some "X", none, none, none, none⟩ "X" = "INSTRUCTOR" :=
  (C10_last_role_wins ⟨["X"], [["a"]]⟩ ⟨some "X", some "X", none, none, none, none⟩ "X"
    "INSTRUCTOR" ["CAMPUS"] (by intro r hr; simp at hr; rw [hr]; rfl) (by decide)).1

/-- Counterexample to C10 as stated: campus and instructor share column `X`,
but the raw table also has a literal `CAMPUS` column, so the earlier campus
role receives that column's data, not `"Unknown"`. -/
theorem C10_counterexample :
    assignedRoles ⟨some "X", some "X", none, none, none, none⟩ "X" = ["CAMPUS", "INSTRUCTOR"] ∧
    getCell (normalize_data ⟨["X", "CAMPUS"], [["a", "b"]]⟩
        ⟨some "X", some "X", none, none, none, none⟩).cols
      ((normalize_data ⟨["X", "CAMPUS"], [["a", "b"]]⟩
        ⟨some "X", some "X", none, none, none, none⟩).rows.getD 0 []) "CAMPUS" = "b" ∧
    ("b" : String) ≠ "Unknown" := by
  refine ⟨by decide, by decide, by decide⟩

/-! ## Aggregator helper lemmas -/

theorem mem_uniqueSorted {l : List String} {a : String} :
    a ∈ uniqueSorted l ↔ a ∈ l := by
  unfold uniqueSorted
  rw [(List.mergeSort_perm _ _).mem_iff, List.mem_dedup]

theorem round1_intCast (n : ℤ) : round1 ((n : ℚ)) = (n : ℚ) := by
  unfold round1 pyRound
  have h10 : ((n : ℚ)) * 10 = (((10 * n : ℤ) : ℤ) : ℚ) := by push_cast; ring
  rw [h10, Int.floor_intCast]
  rw [if_pos (by norm_num)]
  push_cast
  ring

/-! ## C8 -/

/-- C8: on an empty table all four aggregators return their defined
empty/zero-valued result: `compute_kpis` the empty dict, the performance
rollup the empty list, the risk factors two empty lists, and
`build_ai_summary` the error dict, with no division by zero. -/
theorem C8_empty_table_results (cols : List String) (ctx : String) :
    compute_kpis ⟨cols, []⟩ = none ∧
    compute_instructor_performance ⟨cols, []⟩ = [] ∧
    compute_risk_factors ⟨cols, []⟩ = ⟨[], []⟩ ∧
    build_ai_summary ⟨cols, []⟩ ctx = .err ctx "No data available in current filter" :=
  ⟨rfl, rfl, rfl, rfl⟩

/-! ## C6 -/

/-- C6: `compute_risk_factors` lists exactly the campuses whose mean score
is below 3/5 and exactly the instructors whose mean score is below 1/2;
`compute_kpis` counts at-risk instructors with the same 1/2 threshold; and
the boundary instances 0.59 / 0.61 (campus) and 0.49 / 0.51 (instructor)
behave as the spec states. -/
theorem C6_risk_thresholds :
    (∀ (t : CTable) (c : String),
      (c ∈ (compute_risk_factors t).campuses ↔
        c ∈ t.rows.map CRow.CAMPUS ∧ groupMean t.rows CRow.CAMPUS c < 3/5) ∧
      (c ∈ (compute_risk_factors t).instructors ↔
        c ∈ t.rows.map CRow.INSTRUCTOR ∧ groupMean t.rows CRow.INSTRUCTOR c < 1/2)) ∧
    (∀ t : CTable, t.rows ≠ [] → ∃ k, compute_kpis t = some k ∧
      k.at_risk_instructors = (compute_risk_factors t).instructors.length) ∧
    "A" ∈ (compute_risk_factors ⟨[], [⟨"A", "i", "s", "x", "st", "w", 59/100⟩]⟩).campuses ∧
    "A" ∉ (compute_risk_factors ⟨[], [⟨"A", "i", "s", "x", "st", "w", 61/100⟩]⟩).campuses ∧
    "i" ∈ (compute_risk_factors ⟨[], [⟨"A", "i", "s", "x", "st", "w", 49/100⟩]⟩).instructors ∧
    "i" ∉ (compute_risk_factors ⟨[], [⟨"A", "i", "s", "x", "st", "w", 51/100⟩]⟩).instructors := by
  have hmain : ∀ (t : CTable) (c : String),
      (c ∈ (compute_risk_factors t).campuses ↔
        c ∈ t.rows.map CRow.CAMPUS ∧ groupMean t.rows CRow.CAMPUS c < 3/5) ∧
      (c ∈ (compute_risk_factors t).instructors ↔
        c ∈ t.rows.map CRow.INSTRUCTOR ∧ groupMean t.rows CRow.INSTRUCTOR c < 1/2) := by
    intro t c
    unfold compute_risk_factors
    by_cases h : t.rows.isEmpty
    · rw [if_pos h]
      have hrows : t.rows = [] := List.isEmpty_iff.mp h
      simp [hrows]
    · rw [if_neg h]
      constructor
      · rw [List.mem_filter, mem_uniqueSorted]
        simp [decide_eq_true_eq]
      · rw [List.mem_filter, mem_uniqueSorted]
        simp [decide_eq_true_eq]
  refine ⟨hmain, ?_, ?_, ?_, ?_, ?_⟩
  · intro t hne
    have hni : t.rows.isEmpty = false := by
      simpa [List.isEmpty_iff] using hne
    have hk : compute_kpis t = some
        { num_campuses := nunique (t.rows.map CRow.CAMPUS)
          num_instructors := nunique (t.rows.map CRow.INSTRUCTOR)
          num_subjects := nunique (t.rows.map CRow.SUBJECT)
          global_completion := round1 ((t.rows.map CRow.SCORE).sum / (t.rows.length : ℚ) * 100)
          at_risk_instructors := ((uniqueSorted (t.rows.map CRow.INSTRUCTOR)).filter
            (fun i => decide (groupMean t.rows CRow.INSTRUCTOR i < 1/2))).length } := by
      unfold compute_kpis
      rw [hni, if_neg (by simp)]
    have hr : (compute_risk_factors t).instructors =
        (uniqueSorted (t.rows.map CRow.INSTRUCTOR)).filter
          (fun i => decide (groupMean t.rows CRow.INSTRUCTOR i < 1/2)) := by
      unfold compute_risk_factors
      rw [hni, if_neg (by simp)]
    exact ⟨_, hk, by rw [hr]⟩
  · rw [(hmain _ "A").1]
    refine ⟨by simp, ?_⟩
    norm_num [groupMean, List.filter]
  · rw [(hmain _ "A").1]
    rintro ⟨-, hlt⟩
    norm_num [groupMean, List.filter] at hlt
  · rw [(hmain _ "i").2]
    refine ⟨by simp, ?_⟩
    norm_num [groupMean, List.filter]
  · rw [(hmain _ "i").2]
    rintro ⟨-, hlt⟩
    norm_num [groupMean, List.filter] at hlt

/-- Witness for C6's `compute_kpis` clause on a one-row table. -/
theorem C6_risk_thresholds_witness :
    ∃ k, compute_kpis ⟨[], [⟨"A", "i", "s", "x", "st", "w", 0⟩]⟩ = some k ∧
      k.at_risk_instructors =
        (compute_risk_factors ⟨[], [⟨"A", "i", "s", "x", "st", "w", 0⟩]⟩).instructors.length :=
  C6_risk_thresholds.2.1 ⟨[], [⟨"A", "i", "s", "x", "st", "w", 0⟩]⟩ (by simp)

/-! ## C5 -/

/-- C5 (amended): every group's status label in the performance rollup is
`label_status` of its `Completion_Pct`, whose thresholds are exactly those
of the claim — but the produced strings carry trailing emoji
(`"On Track ✅"`, `"Delayed ⚠️"`, `"Critical 🔴"`), not the bare words the
claim states; the boundary cases 80.0, 79.9, 50.0, 49.9 fall as claimed. -/
theorem C5_status_label_boundaries :
    (∀ t : CTable, ∀ g ∈ compute_instructor_performance t,
      g.Status = label_status g.Completion_Pct) ∧
    (∀ pct : ℚ,
      (pct ≥ 80 → label_status pct = "On Track ✅") ∧
      (pct ≥ 50 → ¬(pct ≥ 80) → label_status pct = "Delayed ⚠️") ∧
      (¬(pct ≥ 50) → label_status pct = "Critical 🔴")) ∧
    label_status 80 = "On Track ✅" ∧ label_status (799/10) = "Delayed ⚠️" ∧
    label_status 50 = "Delayed ⚠️" ∧ label_status (499/10) = "Critical 🔴" := by
  refine ⟨?_, ?_, ?_, ?_, ?_, ?_⟩
  · intro t g hg
    unfold compute_instructor_performance at hg
    by_cases h : t.rows.isEmpty
    · rw [if_pos h] at hg
      cases hg
    · rw [if_neg h] at hg
      rw [(List.mergeSort_perm _ _).mem_iff] at hg
      obtain ⟨p, _, rfl⟩ := List.mem_map.mp hg
      rfl
  · intro pct
    unfold label_status
    refine ⟨?_, ?_, ?_⟩
    · intro h1
      rw [if_pos h1]
    · intro h1 h2
      rw [if_neg h2, if_pos h1]
    · intro h1
      rw [if_neg (fun h => h1 (le_trans (by norm_num) h)), if_neg h1]
  · norm_num [label_status]
  · norm_num [label_status]
  · norm_num [label_status]
  · norm_num [label_status]

/-- Witness for C5 at a concrete percentage. -/
theorem C5_status_label_boundaries_witness :
    label_status 100 = "On Track ✅" :=
  (C5_status_label_boundaries.2.1 100).1 (by norm_num)

/-- Counterexample to C5 as stated: a one-row table whose single group sits
exactly at 80 percent is labelled `"On Track ✅"`, which is not the bare
string `"On Track"` the claim requires. -/
theorem C5_counterexample :
    (compute_instructor_performance ⟨[], [⟨"c", "i", "s", "x", "st", "w", 4/5⟩]⟩).map
      PerfRow.Status = ["On Track ✅"] ∧
    ("On Track ✅" : String) ≠ "On Track" := by
  constructor
  · have hpct : round1 ((4/5 : ℚ) / ((1 : ℕ) : ℚ) * 100) = 80 := by
      have h80 : ((4/5 : ℚ) / ((1 : ℕ) : ℚ) * 100) = ((80 : ℤ) : ℚ) := by norm_num
      rw [h80, round1_intCast]
      norm_num
    simp only [compute_instructor_performance, groupPairs, perfRowFor, List.isEmpty_cons,
      Bool.false_eq_true, if_false, List.map_cons, List.map_nil, List.dedup_cons_of_not_mem,
      List.not_mem_nil, not_false_iff, List.dedup_nil, List.mergeSort_singleton,
      List.mergeSort_nil]
    simp only [List.filter_cons, List.filter_nil, decide_eq_true_eq]
    rw [if_pos (by trivial)]
    simp only [List.map_cons, List.map_nil, List.length_cons, List.length_nil, List.sum_cons,
      List.sum_nil]
    rw [show ((4:ℚ)/5 + 0) = 4/5 by ring]
    rw [hpct]
    norm_num [label_status]
  · decide

/-! ## C7 -/

/-- C7: for every non-empty canonical table the performance rollup groups
rows by the (instructor, campus) pair — every output group's key occurs in
the table, its count, score sum and `Completion_Pct` are those of its group,
every pair occurring in the table yields a group — and the output is in
non-decreasing `Completion_Pct` order (worst first, every adjacent pair in
order). -/
theorem C7_perf_grouping_sorted (t : CTable) (hne : t.rows ≠ []) :
    (∀ g ∈ compute_instructor_performance t,
      (g.INSTRUCTOR, g.CAMPUS) ∈ t.rows.map (fun r => (r.INSTRUCTOR, r.CAMPUS)) ∧
      g.Total_Items = (t.rows.filter
        (fun r => decide (r.INSTRUCTOR = g.INSTRUCTOR ∧ r.CAMPUS = g.CAMPUS))).length ∧
      g.Completed_Score_Sum = ((t.rows.filter
        (fun r => decide (r.INSTRUCTOR = g.INSTRUCTOR ∧ r.CAMPUS = g.CAMPUS))).map
          CRow.SCORE).sum ∧
      g.Completion_Pct = round1 (g.Completed_Score_Sum / (g.Total_Items : ℚ) * 100)) ∧
    (∀ p ∈ t.rows.map (fun r => (r.INSTRUCTOR, r.CAMPUS)),
      ∃ g ∈ compute_instructor_performance t, g.INSTRUCTOR = p.1 ∧ g.CAMPUS = p.2) ∧
    List.Chain' (fun a b => a.Completion_Pct ≤ b.Completion_Pct)
      (compute_instructor_performance t) := by
  have hni : t.rows.isEmpty = false := by
    simpa [List.isEmpty_iff] using hne
  have hperf : compute_instructor_performance t =
      ((groupPairs t.rows).map (perfRowFor t.rows)).mergeSort
        (fun a b => decide (a.Completion_Pct ≤ b.Completion_Pct)) := by
    unfold compute_instructor_performance
    rw [hni, if_neg (by simp)]
  refine ⟨?_, ?_, ?_⟩
  · intro g hg
    rw [hperf, (List.mergeSort_perm _ _).mem_iff] at hg
    obtain ⟨p, hp, rfl⟩ := List.mem_map.mp hg
    have hpmem : p ∈ t.rows.map (fun r => (r.INSTRUCTOR, r.CAMPUS)) := by
      unfold groupPairs at hp
      rw [(List.mergeSort_perm _ _).mem_iff, List.mem_dedup] at hp
      exact hp
    exact ⟨hpmem, rfl, rfl, rfl⟩
  · intro p hp
    have hpg : p ∈ groupPairs t.rows := by
      unfold groupPairs
      rw [(List.mergeSort_perm _ _).mem_iff, List.mem_dedup]
      exact hp
    refine ⟨perfRowFor t.rows p, ?_, rfl, rfl⟩
    rw [hperf, (List.mergeSort_perm _ _).mem_iff]
    exact List.mem_map_of_mem _ hpg
  · rw [hperf]
    refine List.Pairwise.chain' ?_
    refine List.Pairwise.imp (fun h => of_decide_eq_true h) ?_
    refine List.sorted_mergeSort ?_ ?_ _
    · intro a b c hab hbc
      exact decide_eq_true (le_trans (of_decide_eq_true hab) (of_decide_eq_true hbc))
    · intro a b
      rcases le_total a.Completion_Pct b.Completion_Pct with h | h
      · simp [h]
      · simp [h]

/-- Witness for C7 on a two-group table. -/
theorem C7_perf_grouping_sorted_witness :
    List.Chain' (fun a b => a.Completion_Pct ≤ b.Completion_Pct)
      (compute_instructor_performance
        ⟨[], [⟨"c1", "i1", "s", "x", "st", "w", 1⟩, ⟨"c2", "i2", "s", "x", "st", "w", 0⟩]⟩) :=
  (C7_perf_grouping_sorted
    ⟨[], [⟨"c1", "i1", "s", "x", "st", "w", 1⟩, ⟨"c2", "i2", "s", "x", "st", "w", 0⟩]⟩
    (by simp)).2.2

/-! ## C9 -/

/-- C9 (amended): for every non-empty canonical table the digest's at-risk
preview has at most 5 entries, each drawn from the rows scoring below 1/2
and projected to the preferred columns present in the table; `risk_count`
is the total number of such rows (0 risk rows give `risk_count = 0` and an
empty preview); and the distinct-section count is included exactly when a
`SECTION` column is present — which holds for every Normalizer output,
even when the section role was unset (the case the original claim gets
wrong). -/
theorem C9_ai_summary (t : CTable) (ctx : String) (hne : t.rows ≠ []) :
    (∃ d, build_ai_summary t ctx = .ok d ∧
      d.at_risk_preview.length ≤ 5 ∧
      (∀ pr ∈ d.at_risk_preview, ∃ r ∈ t.rows, r.SCORE < 1/2 ∧
        pr = projRow (preferred_cols.filter (fun c => t.cols.contains c)) r) ∧
      d.risk_count = (t.rows.filter (fun r => decide (r.SCORE < 1/2))).length ∧
      (t.rows.filter (fun r => decide (r.SCORE < 1/2)) = [] →
        d.risk_count = 0 ∧ d.at_risk_preview = []) ∧
      d.active_sections = (if t.cols.contains "SECTION" then
        some (nunique (t.rows.map CRow.SECTION)) else none)) ∧
    (∀ (df : DF) (m : SchemaMap), "SECTION" ∈ (toCTable (normalize_data df m)).cols) := by
  have hni : t.rows.isEmpty = false := by
    simpa [List.isEmpty_iff] using hne
  constructor
  · have hb : build_ai_summary t ctx = .ok
        { context := ctx
          total_records := t.rows.length
          average_completion_pct :=
            round1 ((t.rows.map CRow.SCORE).sum / (t.rows.length : ℚ) * 100)
          status_distribution := statusCounts t.rows
          at_risk_preview := ((t.rows.filter (fun r => decide (r.SCORE < 1/2))).take 5).map
            (projRow (preferred_cols.filter (fun c => t.cols.contains c)))
          risk_count := (t.rows.filter (fun r => decide (r.SCORE < 1/2))).length
          unique_instructors := nunique (t.rows.map CRow.INSTRUCTOR)
          unique_campuses := nunique (t.rows.map CRow.CAMPUS)
          active_sections := if t.cols.contains "SECTION" then
            some (nunique (t.rows.map CRow.SECTION)) else none } := by
      unfold build_ai_summary
      rw [hni, if_neg (by simp)]
    refine ⟨_, hb, ?_, ?_, rfl, ?_, rfl⟩
    · simp only [List.length_map, List.length_take]
      exact min_le_left _ _
    · intro pr hpr
      simp only at hpr
      obtain ⟨r, hr, rfl⟩ := List.mem_map.mp hpr
      have hrrisk : r ∈ t.rows.filter (fun r => decide (r.SCORE < 1/2)) :=
        List.take_subset _ _ hr
      obtain ⟨hrmem, hsc⟩ := List.mem_filter.mp hrrisk
      exact ⟨r, hrmem, of_decide_eq_true hsc, rfl⟩
    · intro hrisk
      constructor
      · show (t.rows.filter (fun r => decide (r.SCORE < 1/2))).length = 0
        rw [hrisk]
        rfl
      · show ((t.rows.filter (fun r => decide (r.SCORE < 1/2))).take 5).map
          (projRow (preferred_cols.filter (fun c => t.cols.contains c))) = []
        rw [hrisk]
        rfl
  · intro df m
    exact normalize_cols_mem df m (by decide)

/-- Witness for C9 on a one-row table carrying a `SECTION` column. -/
theorem C9_ai_summary_witness :
    ∃ d, build_ai_summary ⟨["SECTION"], [⟨"c", "i", "s", "x", "st", "w", 1⟩]⟩ "overall" = .ok d ∧
      d.at_risk_preview.length ≤ 5 ∧
      (∀ pr ∈ d.at_risk_preview, ∃ r ∈ [(⟨"c", "i", "s", "x", "st", "w", 1⟩ : CRow)],
        r.SCORE < 1/2 ∧
        pr = projRow (preferred_cols.filter
          (fun c => List.contains ["SECTION"] c)) r) ∧
      d.risk_count = ([(⟨"c", "i", "s", "x", "st", "w", 1⟩ : CRow)].filter
        (fun r => decide (r.SCORE < 1/2))).length ∧
      ([(⟨"c", "i", "s", "x", "st", "w", 1⟩ : CRow)].filter
          (fun r => decide (r.SCORE < 1/2)) = [] →
        d.risk_count = 0 ∧ d.at_risk_preview = []) ∧
      d.active_sections = (if List.contains ["SECTION"] "SECTION" then
        some (nunique ([(⟨"c", "i", "s", "x", "st", "w", 1⟩ : CRow)].map CRow.SECTION))
        else none) :=
  (C9_ai_summary ⟨["SECTION"], [⟨"c", "i", "s", "x", "st", "w", 1⟩]⟩ "overall" (by simp)).1

/-- Counterexample to C9 as stated: normalizing a table with no
section-like column leaves the section role unset, yet the digest still
carries `active_sections` (the backfilled `SECTION` column always exists). -/
theorem C9_counterexample :
    (auto_detect_schema ["Campus", "Status"]).section_ = none ∧
    activeSectionsOf (build_ai_summary
      (toCTable (normalize_data ⟨["Campus", "Status"], [["A", "Done"]]⟩
        (auto_detect_schema ["Campus", "Status"]))) "overall") = some (some 1) := by
  refine ⟨by decide, by decide⟩

/-- Witness for C3: the characterization applied at the six-column example
(the concrete resolution is its final conjunct). -/
theorem C3_first_matching_column_witness :
    auto_detect_schema ["Center", "Trainer Name", "Module", "Batch No", "Current State", "Week No"] =
      ⟨some "Center", some "Trainer Name", some "Module", some "Batch No",
       some "Current State", some "Week No"⟩ :=
  (C3_first_matching_column [] "").2.2.2.2.2.2.2.2.2.2.2.2

/-- Witness for C8 at concrete arguments. -/
theorem C8_empty_table_results_witness :
    compute_kpis ⟨["CAMPUS"], []⟩ = none :=
  (C8_empty_table_results ["CAMPUS"] "overall").1
